import Mathlib

/-!
Verification development for the Old World ambition parser/viewer
(`parser/parse.py`).  The Python normalization pipeline and the embedded
JavaScript availability engine are shallowly embedded as executable Lean
definitions; the raw XML record reader is treated as an external
collaborator, so a raw record is modelled as a field-addressable
structure of optional scalar fields, pair-list fields and value-list
fields, exactly the view `get_text` / `get_int` / `get_bool` /
`parse_pair_list` / `parse_value_list` provide to the rest of the code.
-/

/-! ## String helpers

The Python code uses `text.split("~")[0]`, `ref.split(",")[0]`,
`s.replace("_", " ")`, `s.startswith(p)`, `s.title()` and
`s.lower()`.  They are embedded as structurally recursive functions on
the character list of a `String` so that every concrete computation
reduces inside the kernel. -/

/-- Characters of `l` before the first occurrence of `c`
(`text.split(c)[0]`). -/
def takeUntilChar (c : Char) (l : List Char) : List Char :=
  l.takeWhile (fun x => x != c)

/-- `text.split("~")[0]` — first language variant of a localization value. -/
def firstVariant (s : String) : String :=
  ⟨takeUntilChar '~' s.data⟩

/-- `ref.split(",")[0]` — a reference with its numeric suffix removed. -/
def commaHead (s : String) : String :=
  ⟨takeUntilChar ',' s.data⟩

/-- `s.replace("_", " ")` for the single-character pattern used by the code. -/
def underscoresToSpaces (s : String) : String :=
  ⟨s.data.map (fun c => if c == '_' then ' ' else c)⟩

/-- Does `p` occur at the head of `l`?  (`s.startswith(p)` on char lists.) -/
def headMatches : List Char → List Char → Bool
  | [], _ => true
  | _ :: _, [] => false
  | p :: ps, c :: cs => p == c && headMatches ps cs

/-- `s.startswith(p)`. -/
def startsW (s p : String) : Bool :=
  headMatches p.data s.data

/-- Python `str.title()` on its ASCII fragment: a letter after a
non-letter is uppercased, every other letter is lowercased. -/
def pyTitleAux : Bool → List Char → List Char
  | _, [] => []
  | prevAlpha, c :: cs =>
    (if prevAlpha then c.toLower else c.toUpper) :: pyTitleAux c.isAlpha cs

/-- Python `str.title()` (ASCII fragment, sufficient for the game ids). -/
def pyTitle (s : String) : String :=
  ⟨pyTitleAux false s.data⟩

/-- `s.lower()` (ASCII fragment). -/
def jsToLower (s : String) : String :=
  ⟨s.data.map Char.toLower⟩

/-- Is `needle` a contiguous run inside `hay`?  (JS `includes`.) -/
def subRun (needle hay : List Char) : Bool :=
  match hay with
  | [] => needle.isEmpty
  | _ :: t => headMatches needle hay || subRun needle t

/-- Python truthiness of an optional text field: `None` and `""` are
falsy, so `get_text(entry, tag)` yields a value only for nonempty text. -/
def strField : Option String → Option String
  | some s => if s == "" then none else some s
  | none => none

/-- Left-biased choice on options (used to state last-write-wins laws). -/
def optOr {α : Type} : Option α → Option α → Option α
  | some x, _ => some x
  | none, b => b

/-! ## TextCatalog (`build_text_lookup`)

A localization source file is a list of entries with optional `zType`
and `en-US` fields.  The Python code folds every file, in load order,
into one dict, assigning `texts[key] = firstVariant(text)`; assignment
overwrites, so the value loaded last wins.  The dict is modelled as an
association list onto which each store *prepends* its pair, with
`List.lookup` (first hit) as the read operation: the most recent store
is found first, which is exactly dict-overwrite semantics. -/

structure TextEntry where
  zType : Option String := none
  enUS : Option String := none
deriving DecidableEq

/-- The key/value pair a text entry contributes, if any: both fields
must be present and nonempty (Python truthiness), and the stored value
is the first `~`-variant. -/
def entryKV (e : TextEntry) : Option (String × String) :=
  match e.zType, e.enUS with
  | some k, some t => if k != "" && t != "" then some (k, firstVariant t) else none
  | _, _ => none

abbrev TextMap := List (String × String)

/-- One `texts[ztype.text] = text` store. -/
def storeEntry (acc : TextMap) (e : TextEntry) : TextMap :=
  match entryKV e with
  | some kv => kv :: acc
  | none => acc

/-- `build_text_lookup`: fold every source file, in load order, into one
key→display-string table. -/
def build_text_lookup (files : List (List TextEntry)) : TextMap :=
  files.foldl (fun acc f => f.foldl storeEntry acc) []

/-- `texts.get(key, "")`. -/
def textsGet (texts : TextMap) (k : String) : String :=
  (List.lookup k texts).getD ""

/-! ## LinkResolver (`resolve_link`) -/

/-- One id→name-key table of the TypeCatalog. -/
abbrev Table := List (String × String)

/-- The fixed ordered head list of `replace_link`'s fallback formatter. -/
def linkHeads : List String :=
  ["LAW_", "TECH_", "IMPROVEMENT_", "YIELD_", "SPECIALIST_",
   "FAMILYCLASS_", "THEOLOGY_", "RELIGION_", "UNIT_",
   "PROJECT_", "DIPLOMACY_", "STAT_"]

/-- The longer head list of `format_type_name`. -/
def formatHeads : List String :=
  ["GOAL_", "LAW_", "TECH_", "IMPROVEMENT_", "YIELD_", "SPECIALIST_",
   "FAMILYCLASS_", "THEOLOGY_", "RELIGION_", "UNIT_", "PROJECT_",
   "DIPLOMACY_", "STAT_", "EFFECTCITY_", "CULTURE_", "SUBJECT_",
   "IMPROVEMENTCLASS_", "RESOURCE_", "OPINIONFAMILY_", "NATION_"]

/-- `format_type_name`: drop the first matching known head (`break`
after the first hit), then underscores to spaces and title case. -/
def format_type_name (t : String) : String :=
  if t == "" then ""
  else
    let stripped :=
      match formatHeads.find? (fun p => startsW t p) with
      | some p => t.drop p.length
      | none => t
    pyTitle (underscoresToSpaces stripped)

/-- The fallback branch of `replace_link`: drop the first matching head
from the short list and format; with no matching head the reference is
returned unchanged. -/
def linkFallback (ref : String) : String :=
  match linkHeads.find? (fun p => startsW ref p) with
  | some p => pyTitle (underscoresToSpaces (ref.drop p.length))
  | none => ref

/-- The probe loop of `replace_link`: scan the type tables in their
fixed order; on a hit whose name-key is present in the text table the
first `~`-variant of that text is the answer, while a hit whose
name-key is *absent* falls through to the next table. -/
def probeLookups (texts : TextMap) (tbls : List Table) (ref : String) : Option String :=
  match tbls with
  | [] => none
  | tbl :: rest =>
    match List.lookup ref tbl with
    | some tkey =>
      match List.lookup tkey texts with
      | some t => some (firstVariant t)
      | none => probeLookups texts rest ref
    | none => probeLookups texts rest ref

/-- `replace_link` (the per-reference resolver of `resolve_link`):
strip the numeric suffix, probe every table, otherwise fall back. -/
def replace_link (texts : TextMap) (tbls : List Table) (refRaw : String) : String :=
  match probeLookups texts tbls (commaHead refRaw) with
  | some t => t
  | none => linkFallback (commaHead refRaw)

/-- Match the regular expression `link\(([^)]+)\)` at the head of the
character list: on success, the (nonempty) group and the remainder
after the closing parenthesis. -/
def tryMatch (cs : List Char) : Option (List Char × List Char) :=
  match cs with
  | a :: b :: c :: d :: e :: rest =>
    if a == 'l' && b == 'i' && c == 'n' && d == 'k' && e == '(' then
      let content := rest.takeWhile (fun ch => ch != ')')
      match rest.dropWhile (fun ch => ch != ')') with
      | _ :: after => if content.isEmpty then none else some (content, after)
      | [] => none
    else none
  | _ => none

/-- The left-to-right non-overlapping substitution of `re.sub`: at each
position try the pattern; on a match emit the replacement and continue
after it, otherwise emit one character and move on.  Fuel (initially the
string length) keeps the recursion structural; each step consumes at
least one character, so the fuel never runs out on a real input. -/
def scanGo (texts : TextMap) (tbls : List Table) : Nat → List Char → List Char
  | 0, cs => cs
  | _ + 1, [] => []
  | fuel + 1, c :: cs =>
    match tryMatch (c :: cs) with
    | some (content, after) =>
      (replace_link texts tbls ⟨content⟩).data ++ scanGo texts tbls fuel after
    | none => c :: scanGo texts tbls fuel cs

/-- `resolve_link`: replace every `link(REFERENCE[,N])` occurrence in a
display string. -/
def resolve_link (texts : TextMap) (tbls : List Table) (s : String) : String :=
  ⟨scanGo texts tbls s.data.length s.data⟩

/-! ## Lexicographic string comparison

JS `localeCompare` (used only as a three-way tie-breaker by the sort)
is modelled as plain lexicographic comparison of the character lists,
implemented structurally so it computes in the kernel. -/

/-- Three-way lexicographic comparison of character lists. -/
def charCmp : List Char → List Char → Ordering
  | [], [] => .eq
  | [], _ :: _ => .lt
  | _ :: _, [] => .gt
  | a :: as, b :: bs =>
    if a < b then .lt else if b < a then .gt else charCmp as bs

/-- Three-way comparison of strings as an integer, the shape the JS
comparator consumes. -/
def strCmp (a b : String) : Int :=
  match charCmp a.data b.data with
  | .lt => -1
  | .eq => 0
  | .gt => 1

/-- Lexicographic `a ≤ b` on strings. -/
def strLE (a b : String) : Bool :=
  charCmp a.data b.data != .gt

/-! ## Raw records and the normalized data model

A raw goal record, as the external record reader presents it: optional
scalar fields (`get_text` / `get_int` / `get_bool` views), value lists
and pair lists, one field per XML tag read by `parse_goals`. -/

/-- One `Pair` element of an `ai*` list (`zIndex` / `iValue`). -/
structure RawPair where
  zIndex : Option String := none
  iValue : Option Int := none
deriving DecidableEq

structure RawEntry where
  zType : Option String := none
  bScenario : Bool := false
  bDisabled : Bool := false
  Name : Option String := none
  ShortName : Option String := none
  HelpText : Option String := none
  iAmbitionClass : Option Int := none
  iMinTier : Option Int := none
  iMaxTier : Option Int := none
  iSubjectWeight : Option Int := none
  GameContentRequired : Option String := none
  TechPrereq : Option String := none
  TechObsolete : Option String := none
  NationPrereq : Option String := none
  aeFamilyClass : List (Option String) := []
  aeReligion : List (Option String) := []
  aeInvalidGameOptions : List (Option String) := []
  StartLaw : Option String := none
  EstablishTheology : Option String := none
  iCities : Option Int := none
  iConnectedCities : Option Int := none
  iPopulation : Option Int := none
  iLegitimacy : Option Int := none
  iWonders : Option Int := none
  iLaws : Option Int := none
  iCitizens : Option Int := none
  iSpecialists : Option Int := none
  iLuxuries : Option Int := none
  iSentLuxuries : Option Int := none
  iMilitaryUnits : Option Int := none
  iMaxLevelUnits : Option Int := none
  iUrbanTiles : Option Int := none
  iUrbanImprovements : Option Int := none
  iRevealLand : Option Int := none
  iRevealWater : Option Int := none
  iGeneralCount : Option Int := none
  iExplorerCount : Option Int := none
  iGovernorCount : Option Int := none
  iAgentCount : Option Int := none
  iAgentNetworks : Option Int := none
  iWorldReligionHolyCities : Option Int := none
  aiYieldProducedData : List RawPair := []
  aiYieldSoldData : List RawPair := []
  aiYieldRate : List RawPair := []
  aiYieldCount : List RawPair := []
  aiImprovementCount : List RawPair := []
  aiImprovementClassCount : List RawPair := []
  aiSpecialistCount : List RawPair := []
  aiUnitCount : List RawPair := []
  aiUnitTraitCount : List RawPair := []
  aiProjectCount : List RawPair := []
  aiLuxuryCount : List RawPair := []
  aiDiplomacyCount : List RawPair := []
  aiStatCountData : List RawPair := []
  aiCultureCount : List RawPair := []
  aiCultureWonders : List RawPair := []
  aiTribesKilledData : List RawPair := []
  aiMissionsCompletedData : List RawPair := []
  aeTechsAcquired : List (Option String) := []
  aeSubGoals : List (Option String) := []
  bStateReligion : Bool := false
  bAllHolyCities : Bool := false
  bVictoryEligible : Bool := false
  bBlockComplete : Bool := false
  bGlobal : Bool := false
  DiplomacyAll : Option String := none
  MinOpinionFamily : Option String := none

/-- `parse_value_list`: keep the nonempty texts of the `zValue` children. -/
def parse_value_list (l : List (Option String)) : List String :=
  l.filterMap strField

/-- A pair record produced by `parse_pair_list`. -/
structure GoalPair where
  type : String
  value : Int
deriving DecidableEq

/-- `parse_pair_list`: keep pairs whose `zIndex` text is nonempty; a
missing `iValue` defaults to `0`. -/
def parse_pair_list (l : List RawPair) : List GoalPair :=
  l.filterMap (fun p =>
    (strField p.zIndex).map (fun s => { type := s, value := p.iValue.getD 0 }))

/-- One formatted element of a typed-count requirement. -/
structure TypedItem where
  type : String
  typeName : String
  value : Int
deriving DecidableEq

/-- A value stored in the dynamically grown `requirements` dict. -/
inductive RVal where
  | str : String → RVal
  | int : Int → RVal
  | bool : Bool → RVal
  | strs : List String → RVal
  | typed : List TypedItem → RVal
deriving DecidableEq

/-- The `requirements` dict: stores prepend, `List.lookup` reads the
most recent store first (dict-overwrite semantics). -/
abbrev ReqMap := List (String × RVal)

def reqSet (m : ReqMap) (k : String) (v : RVal) : ReqMap := (k, v) :: m

def reqLookup (m : ReqMap) (k : String) : Option RVal := List.lookup k m

structure EventSource where
  eventName : Option String
  eventDlc : Option String
  trigger : String
deriving DecidableEq

structure Filters where
  techPrereq : Option String := none
  techPrereqName : Option String := none
  techObsolete : Option String := none
  techObsoleteName : Option String := none
  nationPrereq : Option String := none
  nationPrereqName : Option String := none
  familyClasses : List String := []
  familyClassNames : List String := []
  religions : List String := []
  religionNames : List String := []
  invalidGameOptions : List String := []
deriving DecidableEq

structure Flags where
  victoryEligible : Bool := false
  blockComplete : Bool := false
  global : Bool := false
deriving DecidableEq

/-- A normalized Ambition of the published model. -/
structure Goal where
  id : String
  name : String
  shortName : String
  helpText : String
  ambitionClass : Int
  ambitionClassName : String
  minTier : Int
  maxTier : Int
  subjectWeight : Int
  dlc : Option String
  requirements : ReqMap
  filters : Filters
  flags : Flags
  eventSource : Option EventSource := none
deriving DecidableEq

/-- A placeholder used only to project out of an `Option Goal` that is
known to be `some`. -/
def emptyGoal : Goal :=
  { id := "", name := "", shortName := "", helpText := "", ambitionClass := 0
  , ambitionClassName := "", minTier := 0, maxTier := 0, subjectWeight := 0
  , dlc := none, requirements := [], filters := {}, flags := {} }

/-! ## Static tables -/

/-- `AMBITION_CLASS_NAMES`. -/
def AMBITION_CLASS_NAMES : List (Int × String) :=
  [(1, "Laws"), (2, "Theologies"), (3, "Cities"), (4, "Tribes"),
   (5, "Production"), (6, "Stockpiles"), (7, "Workers & Rural"),
   (8, "Rural Improvements"), (9, "Wonders"), (10, "Culture"),
   (11, "Rural Specialists"), (12, "Urban Specialists"), (13, "Projects"),
   (14, "Diplomacy"), (15, "Religion"), (16, "Technology"), (17, "Combat"),
   (18, "Promotions"), (19, "Units"), (20, "Unique Units"), (21, "Leaders"),
   (22, "Exploration"), (23, "Trade"), (24, "Luxuries"), (25, "Conquest"),
   (26, "Population"), (27, "Urban Buildings"), (28, "Religious Buildings"),
   (29, "Urban Development"), (30, "Espionage"), (31, "Defense"),
   (39, "Repairs"), (40, "Lifestyle")]

/-- One row of the `EVENT_ONLY_AMBITIONS` overlay table. -/
structure EventInfo where
  eventName : Option String
  dlc : Option String
  trigger : String
deriving DecidableEq

/-- The static `EVENT_ONLY_AMBITIONS` overlay table. -/
def EVENT_ONLY_AMBITIONS : List (String × EventInfo) :=
  [ ("GOAL_LOSE_A_CITY",
     { eventName := some "Strength and Weakness", dlc := some "Behind the Throne"
     , trigger := "Leader must be Insane, 3+ upset families" })
  , ("GOAL_FURIOUS_FAMILY",
     { eventName := some "Strength and Weakness", dlc := some "Behind the Throne"
     , trigger := "Leader must be Insane, 3+ upset families" })
  , ("GOAL_TO_BE_KING",
     { eventName := some "To Be A King/Queen", dlc := none
     , trigger := "Regent ruling with Rightful Heir alive" })
  , ("GOAL_THE_GREAT",
     { eventName := some "The Road to Glory", dlc := none
     , trigger := "Young leader (under 30) with 2+ dead ancestors, on succession" })
  , ("GOAL_DESTROY_RIVALS",
     { eventName := some "Rivals event chain (Let the Land Burn / No Surrender)", dlc := none
     , trigger := "At war, breach enemy city, part of Rivals chain" })
  , ("GOAL_KILL_CHARACTER",
     { eventName := some "[Character's] Mark", dlc := some "Behind the Throne"
     , trigger := "Child of leader (teen+), angry foreign leader nearby, have spymaster" })
  , ("GOAL_HARVEST_WINE",
     { eventName := some "A Refined Palate", dlc := some "Behind the Throne"
     , trigger := "Leader has high Charisma, unclaimed wine within 5 tiles" })
  , ("GOAL_TAKE_HANGING_GARDENS",
     { eventName := some "The Jewel of [Nation]", dlc := some "Behind the Throne"
     , trigger := "Another nation owns the Hanging Gardens" })
  , ("GOAL_TAKE_CITY",
     { eventName := some "Various conquest/rivalry events", dlc := none
     , trigger := "Rivalry or conquest event chains" })
  , ("GOAL_STATE_RELIGION_SPECIFIC",
     { eventName := some "The Tutor Kartir", dlc := some "Sacred and Profane"
     , trigger := "Character studying, Zoroastrian city, Kartir tutor" })
  , ("GOAL_EIGHT_RELIGION_SPREAD_SPECIFIC",
     { eventName := some "In Heaven as on Earth", dlc := some "Sacred and Profane"
     , trigger := "Augustine character, Christianity, after High Synod mission" })
  , ("GOAL_FOUR_RELIGION_SPREAD_SPECIFIC",
     { eventName := some "Religion events", dlc := some "Sacred and Profane"
     , trigger := "Religion-specific event chains" })
  , ("GOAL_2000_EACH_YIELD",
     { eventName := none, dlc := none, trigger := "Unused/placeholder goal" })
  ]

/-! ## RequirementExtractor: the `requirements` passes of `parse_goals` -/

/-- `StartLaw` pass: sets `type`, `law`, `lawName`. -/
def law_pass (e : RawEntry) (r : ReqMap) : ReqMap :=
  match strField e.StartLaw with
  | some s =>
    reqSet (reqSet (reqSet r "type" (RVal.str "law")) "law" (RVal.str s))
      "lawName" (RVal.str (format_type_name s))
  | none => r

/-- `EstablishTheology` pass: sets `type`, `theology`, `theologyName`. -/
def theology_pass (e : RawEntry) (r : ReqMap) : ReqMap :=
  match strField e.EstablishTheology with
  | some s =>
    reqSet (reqSet (reqSet r "type" (RVal.str "theology")) "theology" (RVal.str s))
      "theologyName" (RVal.str (format_type_name s))
  | none => r

/-- The `simple_counts` table: output key paired with the defaulted
integer value of the raw field (display names are unused by the loop
and omitted). -/
def simple_counts_data (e : RawEntry) : List (String × Int) :=
  [ ("cities", e.iCities.getD 0)
  , ("connectedCities", e.iConnectedCities.getD 0)
  , ("population", e.iPopulation.getD 0)
  , ("legitimacy", e.iLegitimacy.getD 0)
  , ("wonders", e.iWonders.getD 0)
  , ("laws", e.iLaws.getD 0)
  , ("citizens", e.iCitizens.getD 0)
  , ("specialists", e.iSpecialists.getD 0)
  , ("luxuries", e.iLuxuries.getD 0)
  , ("sentLuxuries", e.iSentLuxuries.getD 0)
  , ("militaryUnits", e.iMilitaryUnits.getD 0)
  , ("maxLevelUnits", e.iMaxLevelUnits.getD 0)
  , ("urbanTiles", e.iUrbanTiles.getD 0)
  , ("urbanImprovements", e.iUrbanImprovements.getD 0)
  , ("revealLand", e.iRevealLand.getD 0)
  , ("revealWater", e.iRevealWater.getD 0)
  , ("generals", e.iGeneralCount.getD 0)
  , ("explorers", e.iExplorerCount.getD 0)
  , ("governors", e.iGovernorCount.getD 0)
  , ("agents", e.iAgentCount.getD 0)
  , ("agentNetworks", e.iAgentNetworks.getD 0)
  , ("holyCities", e.iWorldReligionHolyCities.getD 0)
  ]

/-- The keys of the simple-counts table. -/
def simpleCountKeys : List String :=
  ["cities", "connectedCities", "population", "legitimacy", "wonders",
   "laws", "citizens", "specialists", "luxuries", "sentLuxuries",
   "militaryUnits", "maxLevelUnits", "urbanTiles", "urbanImprovements",
   "revealLand", "revealWater", "generals", "explorers", "governors",
   "agents", "agentNetworks", "holyCities"]

/-- One iteration of the simple-counts loop: a positive value stores
itself under the output key and tags `type:"count"` only if *no* type
tag is present at all. -/
def simple_counts_step (r : ReqMap) (p : String × Int) : ReqMap :=
  if 0 < p.2 then
    reqSet
      (if (reqLookup r "type").isNone then reqSet r "type" (RVal.str "count") else r)
      p.1 (RVal.int p.2)
  else r

/-- The simple-counts pass. -/
def simple_counts_pass (e : RawEntry) (r : ReqMap) : ReqMap :=
  (simple_counts_data e).foldl simple_counts_step r

/-- The value the simple-counts loop leaves under an output key: the
*last* positive table value for that key, if any (later iterations
overwrite earlier stores of the same key). -/
def storedVal (l : List (String × Int)) (k : String) : Option Int :=
  match l with
  | [] => none
  | p :: tl =>
    match storedVal tl k with
    | some v => some v
    | none => if p.1 == k && decide (0 < p.2) then some p.2 else none

/-- The `typed_counts` table: output key paired with the parsed pair list. -/
def typed_counts_data (e : RawEntry) : List (String × List GoalPair) :=
  [ ("yieldProduced", parse_pair_list e.aiYieldProducedData)
  , ("yieldSold", parse_pair_list e.aiYieldSoldData)
  , ("yieldRate", parse_pair_list e.aiYieldRate)
  , ("yieldStockpile", parse_pair_list e.aiYieldCount)
  , ("improvements", parse_pair_list e.aiImprovementCount)
  , ("improvementClasses", parse_pair_list e.aiImprovementClassCount)
  , ("specialists", parse_pair_list e.aiSpecialistCount)
  , ("units", parse_pair_list e.aiUnitCount)
  , ("unitTraits", parse_pair_list e.aiUnitTraitCount)
  , ("projects", parse_pair_list e.aiProjectCount)
  , ("luxuriesHooked", parse_pair_list e.aiLuxuryCount)
  , ("diplomacy", parse_pair_list e.aiDiplomacyCount)
  , ("stats", parse_pair_list e.aiStatCountData)
  , ("culture", parse_pair_list e.aiCultureCount)
  , ("cultureWonders", parse_pair_list e.aiCultureWonders)
  , ("tribesKilled", parse_pair_list e.aiTribesKilledData)
  , ("missionsCompleted", parse_pair_list e.aiMissionsCompletedData)
  ]

/-- One iteration of the typed-counts loop. -/
def typed_counts_step (r : ReqMap) (p : String × List GoalPair) : ReqMap :=
  if p.2.isEmpty then r
  else
    reqSet
      (if (reqLookup r "type").isNone then reqSet r "type" (RVal.str "typed_count") else r)
      p.1
      (RVal.typed (p.2.map (fun q =>
        { type := q.type, typeName := format_type_name q.type, value := q.value })))

/-- The typed-counts pass. -/
def typed_counts_pass (e : RawEntry) (r : ReqMap) : ReqMap :=
  (typed_counts_data e).foldl typed_counts_step r

/-- `aeTechsAcquired` pass: unconditionally overwrites `type`. -/
def techs_pass (e : RawEntry) (r : ReqMap) : ReqMap :=
  match parse_value_list e.aeTechsAcquired with
  | [] => r
  | ts =>
    reqSet (reqSet (reqSet r "type" (RVal.str "techs")) "techs" (RVal.strs ts))
      "techNames" (RVal.strs (ts.map format_type_name))

/-- `aeSubGoals` pass. -/
def sub_goals_pass (e : RawEntry) (r : ReqMap) : ReqMap :=
  match parse_value_list e.aeSubGoals with
  | [] => r
  | sg => reqSet r "subGoals" (RVal.strs sg)

/-- Boolean requirement pass (`bStateReligion`, `bAllHolyCities`). -/
def bool_req_pass (e : RawEntry) (r : ReqMap) : ReqMap :=
  let r := if e.bStateReligion then reqSet r "stateReligion" (RVal.bool true) else r
  if e.bAllHolyCities then reqSet r "allHolyCities" (RVal.bool true) else r

/-- `DiplomacyAll` pass. -/
def diplomacy_pass (e : RawEntry) (r : ReqMap) : ReqMap :=
  match strField e.DiplomacyAll with
  | some s =>
    reqSet (reqSet r "diplomacyAll" (RVal.str s))
      "diplomacyAllName" (RVal.str (format_type_name s))
  | none => r

/-- `MinOpinionFamily` pass. -/
def opinion_pass (e : RawEntry) (r : ReqMap) : ReqMap :=
  match strField e.MinOpinionFamily with
  | some s =>
    reqSet (reqSet r "minOpinionFamily" (RVal.str s))
      "minOpinionFamilyName" (RVal.str (format_type_name s))
  | none => r

/-- All requirement passes of `parse_goals`, in source order. -/
def build_requirements (e : RawEntry) : ReqMap :=
  opinion_pass e (diplomacy_pass e (bool_req_pass e (sub_goals_pass e
    (techs_pass e (typed_counts_pass e (simple_counts_pass e
      (theology_pass e (law_pass e []))))))))

/-- The goal record built by one loop iteration of `parse_goals` for an
entry that was not skipped (`ztype` is its nonempty id). -/
def mkGoal (texts : TextMap) (tbls : List Table) (e : RawEntry) (ztype : String) : Goal :=
  let name_key := (strField e.Name).getD ""
  let raw_name := textsGet texts name_key
  let name :=
    if raw_name != "" then resolve_link texts tbls raw_name
    else format_type_name ztype
  let short_name :=
    match strField e.ShortName with
    | some k => resolve_link texts tbls (textsGet texts k)
    | none => ""
  let help_text :=
    match strField e.HelpText with
    | some k => resolve_link texts tbls (textsGet texts k)
    | none => ""
  let ambition_class := e.iAmbitionClass.getD 0
  let family_classes := parse_value_list e.aeFamilyClass
  let religions := parse_value_list e.aeReligion
  { id := ztype
  , name := name
  , shortName := short_name
  , helpText := help_text
  , ambitionClass := ambition_class
  , ambitionClassName :=
      (List.lookup ambition_class AMBITION_CLASS_NAMES).getD
        ("Class " ++ toString ambition_class)
  , minTier := e.iMinTier.getD 1
  , maxTier := e.iMaxTier.getD 10
  , subjectWeight := e.iSubjectWeight.getD 0
  , dlc := strField e.GameContentRequired
  , requirements := build_requirements e
  , filters :=
      { techPrereq := strField e.TechPrereq
      , techPrereqName := (strField e.TechPrereq).map format_type_name
      , techObsolete := strField e.TechObsolete
      , techObsoleteName := (strField e.TechObsolete).map format_type_name
      , nationPrereq := strField e.NationPrereq
      , nationPrereqName := (strField e.NationPrereq).map format_type_name
      , familyClasses := family_classes
      , familyClassNames := family_classes.map format_type_name
      , religions := religions
      , religionNames := religions.map format_type_name
      , invalidGameOptions := parse_value_list e.aeInvalidGameOptions }
  , flags :=
      { victoryEligible := e.bVictoryEligible
      , blockComplete := e.bBlockComplete
      , global := e.bGlobal }
  , eventSource :=
      (List.lookup ztype EVENT_ONLY_AMBITIONS).map (fun i =>
        { eventName := i.eventName, eventDlc := i.dlc, trigger := i.trigger }) }

/-- One loop iteration of `parse_goals`: entries with a falsy id, the
scenario flag or the disabled flag are skipped, every other entry
yields a normalized goal. -/
def parseGoalEntry (texts : TextMap) (tbls : List Table) (e : RawEntry) : Option Goal :=
  match strField e.zType with
  | none => none
  | some ztype =>
    if e.bScenario then none
    else if e.bDisabled then none
    else some (mkGoal texts tbls e ztype)

/-- `parse_goals` restricted to its per-entry loop (the text/type
lookups it builds from files are passed in, matching the spec's view of
the record reader as external). -/
def parse_goals (texts : TextMap) (tbls : List Table) (entries : List RawEntry) : List Goal :=
  entries.filterMap (parseGoalEntry texts tbls)

/-! ## AvailabilityEngine (the embedded viewer script) -/

/-- The client-side filter state (the module-level `selectedNation`,
`selectedFamilies`, `completedCount` variables together with the live
control values read by `filterAndRender`), threaded explicitly.
`completedCount = none` is the `'all'` bucket. -/
structure FilterContext where
  selectedNation : String := ""
  selectedFamilies : List String := []
  completedCount : Option Nat := none
  selectedClass : Option Int := none
  searchTerm : String := ""
  showUnavail : Bool := false

/-- The result object of `checkAvailability`. -/
structure Availability where
  available : Bool
  reasons : List String
deriving DecidableEq

/-- `checkAvailability`: a nation conflict needs a truthy
`nationPrereq`, a selected nation and a mismatch; a family conflict
needs a nonempty preferred set, a nonempty selection and an empty
intersection.  Reasons accumulate in source order.  (JS coerces a
missing `nationPrereqName` to the string `"undefined"`.) -/
def checkAvailability (ctx : FilterContext) (a : Goal) : Availability :=
  let nationConflict :=
    match a.filters.nationPrereq with
    | some np => np != "" && ctx.selectedNation != "" && np != ctx.selectedNation
    | none => false
  let familyConflict :=
    !a.filters.familyClasses.isEmpty && !ctx.selectedFamilies.isEmpty &&
      !(a.filters.familyClasses.any (fun fc => ctx.selectedFamilies.contains fc))
  { available := !nationConflict && !familyConflict
  , reasons :=
      (if nationConflict then
        ["Requires " ++ a.filters.nationPrereqName.getD "undefined"] else []) ++
      (if familyConflict then
        ["Preferred by: " ++ String.intercalate ", " a.filters.familyClassNames] else []) }

/-- `tierFilter`: `null` for the `'all'` bucket, otherwise bucket + 1. -/
def tierFilterOf (completedCount : Option Nat) : Option Int :=
  completedCount.map (fun b => (b : Int) + 1)

/-- The tier test inside `filterAmbitions`:
`if (ambition.minTier > tierFilter || ambition.maxTier < tierFilter) return false`. -/
def tierPass (tf : Option Int) (a : Goal) : Bool :=
  match tf with
  | none => true
  | some t => !(decide (a.minTier > t) || decide (a.maxTier < t))

/-- The category-equality test inside `filterAmbitions`. -/
def classPass (sc : Option Int) (a : Goal) : Bool :=
  match sc with
  | none => true
  | some c => a.ambitionClass == c

/-- The searchable text of an ambition: name, class name, help text and
family-class display names joined and lowercased. -/
def goalSearchText (a : Goal) : String :=
  jsToLower (String.intercalate " "
    ([a.name, a.ambitionClassName, a.helpText] ++ a.filters.familyClassNames))

/-- The free-text test inside `filterAmbitions` (term already lowercased). -/
def searchPass (term : String) (a : Goal) : Bool :=
  term == "" || subRun term.data (goalSearchText a).data

/-- `filterAmbitions`: tier, category and search tests in order. -/
def filter_ambitions (ctx : FilterContext) (l : List Goal) : List Goal :=
  l.filter (fun a =>
    tierPass (tierFilterOf ctx.completedCount) a &&
    classPass ctx.selectedClass a &&
    searchPass (jsToLower ctx.searchTerm) a)

/-- The national partition: `flags.victoryEligible && minTier === 10`. -/
def nationalAmbitions (l : List Goal) : List Goal :=
  l.filter (fun a => a.flags.victoryEligible && a.minTier == 10)

/-- The regular partition: everything else. -/
def regularAmbitions (l : List Goal) : List Goal :=
  l.filter (fun a => !(a.flags.victoryEligible && a.minTier == 10))

/-- An ambition paired with its computed availability
(`{ ...ambition, availability }`). -/
structure Ranked where
  goal : Goal
  availability : Availability
deriving DecidableEq

/-- The three-key comparator passed to `sort`: available before
unavailable, then ascending `minTier` (as a numeric difference), then
the name tie-breaker. -/
def ambCompare (x y : Ranked) : Int :=
  if x.availability.available ≠ y.availability.available then
    (if x.availability.available then -1 else 1)
  else if x.goal.minTier ≠ y.goal.minTier then x.goal.minTier - y.goal.minTier
  else strCmp x.goal.name y.goal.name

/-- Nonpositive comparator result: `x` may stay before `y`. -/
def ambLE (x y : Ranked) : Bool :=
  ambCompare x y ≤ 0

/-- Stable insertion: `x` goes in front of the first element it
compares `≤` to. -/
def insertLE {α : Type} (le : α → α → Bool) (x : α) : List α → List α
  | [] => [x]
  | y :: ys => if le x y then x :: y :: ys else y :: insertLE le x ys

/-- Stable insertion sort; for the total preorder given by the JS
comparator its output coincides with any stable sort, hence with the
engine's `Array.prototype.sort`. -/
def sortLE {α : Type} (le : α → α → Bool) : List α → List α
  | [] => []
  | x :: xs => insertLE le x (sortLE le xs)

/-- `processAmbitions`: attach availability, sort the *full* set
(`withAvailability` is sorted in place), and only then drop unavailable
items when the toggle is off. -/
def processAmbitions (ctx : FilterContext) (ambitions : List Goal) : List Ranked :=
  if ctx.showUnavail then
    sortLE ambLE
      (ambitions.map (fun a => { goal := a, availability := checkAvailability ctx a }))
  else
    (sortLE ambLE
      (ambitions.map (fun a => { goal := a, availability := checkAvailability ctx a }))).filter
      (fun r => r.availability.available)

/-- `filterAndRender`'s two ranked lists (regular, national). -/
def filterAndRender (ctx : FilterContext) (ambitions : List Goal) :
    List Ranked × List Ranked :=
  (processAmbitions ctx (filter_ambitions ctx (regularAmbitions ambitions)),
   processAmbitions ctx (filter_ambitions ctx (nationalAmbitions ambitions)))

/-! ## Concrete records used by the witnesses and counterexamples -/

/-- A raw record carrying inverted tiers (`iMinTier=5`, `iMaxTier=3`). -/
def cexTierEntry : RawEntry := { zType := some "GOAL_TIER_CEX", iMinTier := some 5, iMaxTier := some 3 }

/-- A raw record omitting both tier fields. -/
def wTierEntry : RawEntry := { zType := some "GOAL_TIER_OK" }

def wTierGoal : Goal := (parseGoalEntry [] [] wTierEntry).getD emptyGoal

/-- A raw record with a required law, a positive simple count and a
negative simple count. -/
def cexCountEntry : RawEntry :=
  { zType := some "GOAL_COUNT_CEX", StartLaw := some "LAW_SLAVERY"
  , iCities := some 3, iPopulation := some (-2) }

def cexCountGoal : Goal := (parseGoalEntry [] [] cexCountEntry).getD emptyGoal

/-- A raw record with only a positive city count. -/
def wCountEntry : RawEntry := { zType := some "GOAL_COUNT_W", iCities := some 2 }

/-- An event-only id carrying a nonzero raw subject weight. -/
def cexEventEntry : RawEntry :=
  { zType := some "GOAL_TO_BE_KING", iSubjectWeight := some 5 }

def cexEventGoal : Goal := (parseGoalEntry [] [] cexEventEntry).getD emptyGoal

/-- The same event-only id with the weight field omitted. -/
def wEventEntry : RawEntry := { zType := some "GOAL_TO_BE_KING" }

def wEventGoal : Goal := (parseGoalEntry [] [] wEventEntry).getD emptyGoal

/-- An ambition declaring both a nation filter and preferred families. -/
def c4Goal : Goal :=
  { emptyGoal with
      id := "GOAL_FILTERED"
      name := "Filtered"
      filters := { nationPrereq := some "NATION_BABYLON"
                 , nationPrereqName := some "Babylon"
                 , familyClasses := ["FAMILYCLASS_TRADERS"]
                 , familyClassNames := ["Traders"] } }

/-- The spec scenario record: `iMinTier=3, iMaxTier=7, iSubjectWeight=5`. -/
def tierScenarioEntry : RawEntry :=
  { zType := some "GOAL_TIER_SCENARIO", iMinTier := some 3, iMaxTier := some 7
  , iSubjectWeight := some 5 }

def tierScenarioGoal : Goal := (parseGoalEntry [] [] tierScenarioEntry).getD emptyGoal

/-- Two ambitions for the sort/toggle witnesses. -/
def sortGoalA : Goal :=
  { emptyGoal with id := "GOAL_A", name := "Alpha", minTier := 4, maxTier := 10 }

def sortGoalB : Goal :=
  { emptyGoal with
      id := "GOAL_B"
      name := "Beta"
      minTier := 2
      maxTier := 10
      filters := { nationPrereq := some "NATION_HITTITES"
                 , nationPrereqName := some "Hittites" } }

/-- A context with a nation selected, used by the sort/toggle witnesses. -/
def sortCtx : FilterContext :=
  { selectedNation := "NATION_ROME", selectedFamilies := ["FAMILYCLASS_LANDOWNERS"]
  , showUnavail := true }

/-- Two localization sources that disagree on `TEXT_K`. -/
def c8FileA : List TextEntry := [{ zType := some "TEXT_K", enUS := some "Alpha" }]

def c8FileB : List TextEntry := [{ zType := some "TEXT_K", enUS := some "Beta" }]

/-- A type table mapping a bare category head to a name-key that has no
text entry. -/
def c10Table : Table := [("LAW_", "TEXT_LAW_BARE")]

/-- A type table whose only hit points at a missing text key. -/
def c10WitnessTable : Table := [("LAW_EPICS", "TEXT_LAW_EPICS")]

/-! # Theorems -/

/-! ## Inversion of the per-entry parse -/

theorem parseGoalEntry_eq_some {texts : TextMap} {tbls : List Table}
    {e : RawEntry} {g : Goal} (h : parseGoalEntry texts tbls e = some g) :
    ∃ z, strField e.zType = some z ∧ e.bScenario = false ∧ e.bDisabled = false ∧
      g = mkGoal texts tbls e z := by
  unfold parseGoalEntry at h
  rcases hz : strField e.zType with _ | z <;> simp only [hz] at h
  · exact absurd h (by simp)
  · cases hs : e.bScenario with
    | true => rw [hs] at h; simp at h
    | false =>
      rw [hs] at h
      cases hd : e.bDisabled with
      | true => rw [hd] at h; simp at h
      | false =>
        rw [hd] at h
        simp only [Bool.false_eq_true, if_false, Option.some.injEq] at h
        exact ⟨z, rfl, by simp [hs], by simp [hd], h.symm⟩

/-! ## TextCatalog lemmas -/

theorem optOr_none_right {α : Type} (x : Option α) : optOr x none = x := by
  cases x <;> rfl

theorem optOr_assoc {α : Type} (x y z : Option α) :
    optOr (optOr x y) z = optOr x (optOr y z) := by
  cases x <;> rfl

theorem lookup_storeEntry (acc : TextMap) (e : TextEntry) (k : String) :
    List.lookup k (storeEntry acc e) =
      optOr (List.lookup k (storeEntry [] e)) (List.lookup k acc) := by
  unfold storeEntry
  rcases entryKV e with _ | ⟨k', v⟩
  · simp [optOr]
  · cases h : (k == k') <;> simp [List.lookup, h, optOr]

theorem lookup_foldl_store (es : List TextEntry) (acc : TextMap) (k : String) :
    List.lookup k (es.foldl storeEntry acc) =
      optOr (List.lookup k (es.foldl storeEntry [])) (List.lookup k acc) := by
  induction es generalizing acc with
  | nil => simp [optOr]
  | cons e tl ih =>
    simp only [List.foldl_cons]
    rw [ih (storeEntry acc e), ih (storeEntry [] e), lookup_storeEntry, optOr_assoc]

/-! ## LinkResolver lemmas -/

theorem probeLookups_eq_none {texts : TextMap} {ref : String} :
    ∀ {tbls : List Table}, (∀ tbl ∈ tbls, List.lookup ref tbl = none) →
      probeLookups texts tbls ref = none := by
  intro tbls h
  induction tbls with
  | nil => rfl
  | cons tbl rest ih =>
    unfold probeLookups
    rw [h tbl (by simp)]
    exact ih (fun t ht => h t (by simp [ht]))

theorem probeLookups_miss {texts : TextMap} {tbl : Table} {rest : List Table}
    {ref : String} (h1 : List.lookup ref tbl = none) :
    probeLookups texts (tbl :: rest) ref = probeLookups texts rest ref := by
  conv_lhs => unfold probeLookups
  rw [h1]

theorem probeLookups_skip {texts : TextMap} {tbl : Table} {rest : List Table}
    {ref tkey : String} (h1 : List.lookup ref tbl = some tkey)
    (h2 : List.lookup tkey texts = none) :
    probeLookups texts (tbl :: rest) ref = probeLookups texts rest ref := by
  conv_lhs => unfold probeLookups
  split
  case h_1 tkey' hk =>
    rw [h1] at hk
    injection hk with hk
    subst hk
    split
    case h_1 t ht => rw [h2] at ht; cases ht
    case h_2 => rfl
  case h_2 => rfl

theorem probeLookups_all_missing {texts : TextMap} {ref : String} :
    ∀ {tbls : List Table},
      (∀ tbl ∈ tbls, ∀ k, List.lookup ref tbl = some k → List.lookup k texts = none) →
      probeLookups texts tbls ref = none := by
  intro tbls h
  induction tbls with
  | nil => rfl
  | cons tbl rest ih =>
    rcases h1 : List.lookup ref tbl with _ | tkey
    · rw [probeLookups_miss h1]
      exact ih (fun t ht k hk => h t (by simp [ht]) k hk)
    · rw [probeLookups_skip h1 (h tbl (by simp) tkey h1)]
      exact ih (fun t ht k hk => h t (by simp [ht]) k hk)

theorem replace_link_fallback {texts : TextMap} {tbls : List Table} {refRaw : String}
    (h : probeLookups texts tbls (commaHead refRaw) = none) :
    replace_link texts tbls refRaw = linkFallback (commaHead refRaw) := by
  unfold replace_link
  rw [h]

theorem resolve_link_single (texts : TextMap) (tbls : List Table) :
    resolve_link texts tbls "link(LAW_FOO_BAR)" =
      replace_link texts tbls "LAW_FOO_BAR" := by
  show String.mk ((replace_link texts tbls "LAW_FOO_BAR").data ++ []) =
    replace_link texts tbls "LAW_FOO_BAR"
  rw [List.append_nil]

/-! ## Requirements-dict lemmas -/

theorem reqLookup_reqSet_eq (r : ReqMap) (k : String) (v : RVal) :
    reqLookup (reqSet r k v) k = some v := by
  simp [reqLookup, reqSet, List.lookup]

theorem reqLookup_reqSet_ne (r : ReqMap) (k k' : String) (v : RVal) (h : k ≠ k') :
    reqLookup (reqSet r k' v) k = reqLookup r k := by
  simp [reqLookup, reqSet, List.lookup, beq_false_of_ne h]

theorem sc_step_type (r : ReqMap) (p : String × Int) (hp : p.1 ≠ "type") :
    reqLookup (simple_counts_step r p) "type" =
      optOr (reqLookup r "type")
        (if 0 < p.2 then some (RVal.str "count") else none) := by
  unfold simple_counts_step
  by_cases hpos : 0 < p.2
  · rw [if_pos hpos, if_pos hpos, reqLookup_reqSet_ne _ _ _ _ (Ne.symm hp)]
    cases hr : reqLookup r "type" with
    | none =>
      rw [if_pos (show (Option.isNone (none : Option RVal)) = true from rfl),
        reqLookup_reqSet_eq]
      rfl
    | some t =>
      rw [if_neg (by simp), hr]
      rfl
  · rw [if_neg hpos, if_neg hpos, optOr_none_right]

theorem sc_fold_type (l : List (String × Int)) (r : ReqMap)
    (hk : ∀ p ∈ l, p.1 ≠ "type") :
    reqLookup (l.foldl simple_counts_step r) "type" =
      optOr (reqLookup r "type")
        (if l.any (fun p => decide (0 < p.2)) then some (RVal.str "count") else none) := by
  induction l generalizing r with
  | nil => simp [optOr_none_right]
  | cons p tl ih =>
    simp only [List.foldl_cons, List.any_cons]
    rw [ih _ (fun q hq => hk q (List.mem_cons_of_mem _ hq)),
      sc_step_type _ _ (hk p (List.mem_cons_self _ _)), optOr_assoc]
    by_cases hpos : 0 < p.2
    · rw [if_pos hpos, if_pos (show (decide (0 < p.2) ||
          tl.any fun p => decide (0 < p.2)) = true by simp [hpos])]
      congr 1
    · rw [if_neg hpos]
      have hd : decide (0 < p.2) = false := by simp [hpos]
      simp only [hd, Bool.false_or]
      rfl

theorem sc_step_other (r : ReqMap) (p : String × Int) (k : String) (hk : k ≠ "type") :
    reqLookup (simple_counts_step r p) k =
      if p.1 == k && decide (0 < p.2) then some (RVal.int p.2) else reqLookup r k := by
  unfold simple_counts_step
  by_cases hpos : 0 < p.2
  · rw [if_pos hpos]
    by_cases hpk : p.1 = k
    · subst hpk
      rw [reqLookup_reqSet_eq, if_pos (by simp [hpos])]
    · rw [reqLookup_reqSet_ne _ _ _ _ (Ne.symm hpk),
        if_neg (show ¬((p.1 == k && decide (0 < p.2)) = true) by simp [hpk])]
      by_cases hr : (reqLookup r "type").isNone = true
      · rw [if_pos hr, reqLookup_reqSet_ne _ _ _ _ hk]
      · rw [if_neg hr]
  · rw [if_neg hpos, if_neg (by simp [hpos])]

theorem sc_fold_other (l : List (String × Int)) (r : ReqMap) (k : String)
    (hk : k ≠ "type") :
    reqLookup (l.foldl simple_counts_step r) k =
      (match storedVal l k with
       | some v => some (RVal.int v)
       | none => reqLookup r k) := by
  induction l generalizing r with
  | nil => rfl
  | cons p tl ih =>
    simp only [List.foldl_cons]
    rw [ih (simple_counts_step r p)]
    cases hsv : storedVal tl k with
    | some v => simp [storedVal, hsv]
    | none =>
      simp only [storedVal, hsv]
      rw [sc_step_other _ _ _ hk]
      by_cases hc : (p.1 == k && decide (0 < p.2)) = true
      · rw [if_pos hc, if_pos hc]
      · rw [if_neg hc, if_neg hc]

theorem storedVal_none_of_not_mem (l : List (String × Int)) (k : String)
    (h : k ∉ l.map Prod.fst) : storedVal l k = none := by
  induction l with
  | nil => rfl
  | cons p tl ih =>
    have hk : p.1 ≠ k := fun hc => h (by simp [hc])
    have htl : storedVal tl k = none := ih (fun hc => h (by simp [hc]))
    simp [storedVal, htl, hk]

theorem storedVal_of_mem (l : List (String × Int)) (k : String) (v : Int)
    (hnd : (l.map Prod.fst).Nodup) (hm : (k, v) ∈ l) (hv : 0 < v) :
    storedVal l k = some v := by
  induction l with
  | nil => cases hm
  | cons p tl ih =>
    rcases List.mem_cons.mp hm with hm | hm
    · have hknotin : k ∉ tl.map Prod.fst := by
        have := (List.nodup_cons.mp hnd).1
        rw [← hm] at this
        exact this
      rw [← hm] at hnd ⊢
      simp [storedVal, storedVal_none_of_not_mem tl k hknotin, hv]
    · have := ih (List.nodup_cons.mp hnd).2 hm
      simp [storedVal, this]

theorem storedVal_nonpos_of_mem (l : List (String × Int)) (k : String) (v : Int)
    (hnd : (l.map Prod.fst).Nodup) (hm : (k, v) ∈ l) (hv : ¬ 0 < v) :
    storedVal l k = none := by
  induction l with
  | nil => cases hm
  | cons p tl ih =>
    rcases List.mem_cons.mp hm with hm | hm
    · have hknotin : k ∉ tl.map Prod.fst := by
        have := (List.nodup_cons.mp hnd).1
        rw [← hm] at this
        exact this
      rw [← hm]
      simp [storedVal, storedVal_none_of_not_mem tl k hknotin, hv]
    · have hkin : k ∈ tl.map Prod.fst :=
        List.mem_map_of_mem Prod.fst hm
      have hp1 : p.1 ≠ k := fun hc => (List.nodup_cons.mp hnd).1 (hc ▸ hkin)
      simp [storedVal, ih (List.nodup_cons.mp hnd).2 hm, hp1]

theorem scd_keys (e : RawEntry) :
    (simple_counts_data e).map Prod.fst = simpleCountKeys := rfl

theorem simpleCountKeys_nodup : simpleCountKeys.Nodup := by decide

theorem type_not_in_keys : "type" ∉ simpleCountKeys := by decide

/-! ## Lexicographic comparison lemmas -/

theorem charCmp_self (a : List Char) : charCmp a a = .eq := by
  induction a with
  | nil => rfl
  | cons c cs ih => simp [charCmp, lt_irrefl, ih]

theorem charCmp_eq_iff : ∀ {a b : List Char}, charCmp a b = .eq ↔ a = b := by
  intro a
  induction a with
  | nil =>
    intro b
    cases b with
    | nil => simp [charCmp]
    | cons d ds => simp [charCmp]
  | cons c cs ih =>
    intro b
    cases b with
    | nil => simp [charCmp]
    | cons d ds =>
      simp only [charCmp]
      rcases lt_trichotomy c d with h | h | h
      · rw [if_pos h]
        constructor
        · intro hc; exact absurd hc (by decide)
        · intro hc
          injection hc with h1 h2
          exact absurd h1 (ne_of_lt h)
      · subst h
        rw [if_neg (lt_irrefl c), if_neg (lt_irrefl c), ih]
        simp
      · rw [if_neg (lt_asymm h), if_pos h]
        constructor
        · intro hc; exact absurd hc (by decide)
        · intro hc
          injection hc with h1 h2
          exact absurd h1.symm (ne_of_lt h)

theorem charCmp_swap : ∀ (a b : List Char), (charCmp a b).swap = charCmp b a := by
  intro a
  induction a with
  | nil =>
    intro b
    cases b <;> rfl
  | cons c cs ih =>
    intro b
    cases b with
    | nil => rfl
    | cons d ds =>
      simp only [charCmp]
      rcases lt_trichotomy c d with h | h | h
      · rw [if_pos h, if_neg (lt_asymm h), if_pos h]
        rfl
      · subst h
        rw [if_neg (lt_irrefl c), if_neg (lt_irrefl c), if_neg (lt_irrefl c),
          if_neg (lt_irrefl c)]
        exact ih ds
      · rw [if_neg (lt_asymm h), if_pos h, if_pos h]
        rfl

theorem charCmp_lt_trans :
    ∀ {a b c : List Char}, charCmp a b = .lt → charCmp b c = .lt → charCmp a c = .lt := by
  intro a
  induction a with
  | nil =>
    intro b c h1 h2
    cases b with
    | nil => exact absurd h1 (by decide)
    | cons y ys =>
      cases c with
      | nil => exact absurd h2 (by simp [charCmp])
      | cons z zs => rfl
  | cons x xs ih =>
    intro b c h1 h2
    cases b with
    | nil => exact absurd h1 (by simp [charCmp])
    | cons y ys =>
      cases c with
      | nil => exact absurd h2 (by simp [charCmp])
      | cons z zs =>
        simp only [charCmp] at h1 h2 ⊢
        rcases lt_trichotomy x y with hxy | hxy | hxy
        · rcases lt_trichotomy y z with hyz | hyz | hyz
          · rw [if_pos (lt_trans hxy hyz)]
          · rw [if_pos (hyz ▸ hxy)]
          · rw [if_neg (lt_asymm hyz), if_pos hyz] at h2
            exact absurd h2 (by decide)
        · subst hxy
          rw [if_neg (lt_irrefl x), if_neg (lt_irrefl x)] at h1
          rcases lt_trichotomy x z with hxz | hxz | hxz
          · rw [if_pos hxz]
          · subst hxz
            rw [if_neg (lt_irrefl x), if_neg (lt_irrefl x)] at h2 ⊢
            exact ih h1 h2
          · rw [if_neg (lt_asymm hxz), if_pos hxz] at h2
            exact absurd h2 (by decide)
        · rw [if_neg (lt_asymm hxy), if_pos hxy] at h1
          exact absurd h1 (by decide)

theorem charCmp_ne_gt_iff {a b : List Char} :
    charCmp a b ≠ .gt ↔ charCmp a b = .lt ∨ a = b := by
  constructor
  · intro h
    cases hc : charCmp a b with
    | lt => exact Or.inl rfl
    | eq => exact Or.inr (charCmp_eq_iff.mp hc)
    | gt => exact absurd hc h
  · intro h hc
    rcases h with h | h
    · rw [h] at hc; cases hc
    · subst h; rw [charCmp_self a] at hc; cases hc

theorem strLE_iff_ne_gt {a b : String} :
    strLE a b = true ↔ charCmp a.data b.data ≠ .gt := by
  unfold strLE
  cases h : charCmp a.data b.data <;> decide

theorem strLE_trans {a b c : String} (h1 : strLE a b = true) (h2 : strLE b c = true) :
    strLE a c = true := by
  rw [strLE_iff_ne_gt, charCmp_ne_gt_iff] at h1 h2 ⊢
  rcases h1 with h1 | h1
  · rcases h2 with h2 | h2
    · exact Or.inl (charCmp_lt_trans h1 h2)
    · exact Or.inl (h2 ▸ h1)
  · rcases h2 with h2 | h2
    · exact Or.inl (h1.symm ▸ h2)
    · exact Or.inr (h1.trans h2)

theorem strLE_total (a b : String) : strLE a b = true ∨ strLE b a = true := by
  rw [strLE_iff_ne_gt, strLE_iff_ne_gt, charCmp_ne_gt_iff, charCmp_ne_gt_iff]
  cases hc : charCmp a.data b.data with
  | lt => exact Or.inl (Or.inl rfl)
  | eq => exact Or.inl (Or.inr (charCmp_eq_iff.mp hc))
  | gt =>
    have hs := charCmp_swap a.data b.data
    rw [hc] at hs
    exact Or.inr (Or.inl hs.symm)

theorem strCmp_nonpos_iff {a b : String} : strCmp a b ≤ 0 ↔ strLE a b = true := by
  unfold strCmp
  rw [strLE_iff_ne_gt]
  cases h : charCmp a.data b.data <;> decide

theorem ambLE_iff (x y : Ranked) :
    ambLE x y = true ↔
      ((x.availability.available = true ∧ y.availability.available = false) ∨
       (x.availability.available = y.availability.available ∧
         (x.goal.minTier < y.goal.minTier ∨
           (x.goal.minTier = y.goal.minTier ∧
             strLE x.goal.name y.goal.name = true)))) := by
  unfold ambLE ambCompare
  cases hx : x.availability.available <;> cases hy : y.availability.available <;>
    simp
  · by_cases hmt : x.goal.minTier = y.goal.minTier
    · simp [hmt, strCmp_nonpos_iff, lt_irrefl]
    · simp [hmt]
      omega
  · by_cases hmt : x.goal.minTier = y.goal.minTier
    · simp [hmt, strCmp_nonpos_iff, lt_irrefl]
    · simp [hmt]
      omega

theorem ambLE_trans (x y z : Ranked) (h1 : ambLE x y = true) (h2 : ambLE y z = true) :
    ambLE x z = true := by
  rw [ambLE_iff] at h1 h2 ⊢
  rcases h1 with ⟨hx1, hy1⟩ | ⟨hav1, h1⟩
  · rcases h2 with ⟨hy2, hz2⟩ | ⟨hav2, h2⟩
    · rw [hy1] at hy2; cases hy2
    · exact Or.inl ⟨hx1, hav2 ▸ hy1⟩
  · rcases h2 with ⟨hy2, hz2⟩ | ⟨hav2, h2⟩
    · exact Or.inl ⟨hav1.trans hy2, hz2⟩
    · refine Or.inr ⟨hav1.trans hav2, ?_⟩
      rcases h1 with h1 | ⟨he1, hs1⟩
      · rcases h2 with h2 | ⟨he2, hs2⟩
        · exact Or.inl (lt_trans h1 h2)
        · exact Or.inl (he2 ▸ h1)
      · rcases h2 with h2 | ⟨he2, hs2⟩
        · exact Or.inl (by rw [he1]; exact h2)
        · exact Or.inr ⟨he1.trans he2, strLE_trans hs1 hs2⟩

theorem ambLE_total (x y : Ranked) : ambLE x y = true ∨ ambLE y x = true := by
  rw [ambLE_iff, ambLE_iff]
  cases hx : x.availability.available <;> cases hy : y.availability.available
  · rcases lt_trichotomy x.goal.minTier y.goal.minTier with h | h | h
    · exact Or.inl (Or.inr ⟨rfl, Or.inl h⟩)
    · rcases strLE_total x.goal.name y.goal.name with hs | hs
      · exact Or.inl (Or.inr ⟨rfl, Or.inr ⟨h, hs⟩⟩)
      · exact Or.inr (Or.inr ⟨rfl, Or.inr ⟨h.symm, hs⟩⟩)
    · exact Or.inr (Or.inr ⟨rfl, Or.inl h⟩)
  · exact Or.inr (Or.inl ⟨rfl, rfl⟩)
  · exact Or.inl (Or.inl ⟨rfl, rfl⟩)
  · rcases lt_trichotomy x.goal.minTier y.goal.minTier with h | h | h
    · exact Or.inl (Or.inr ⟨rfl, Or.inl h⟩)
    · rcases strLE_total x.goal.name y.goal.name with hs | hs
      · exact Or.inl (Or.inr ⟨rfl, Or.inr ⟨h, hs⟩⟩)
      · exact Or.inr (Or.inr ⟨rfl, Or.inr ⟨h.symm, hs⟩⟩)
    · exact Or.inr (Or.inr ⟨rfl, Or.inl h⟩)

theorem ambLE_dest {x y : Ranked} (h : ambLE x y = true) :
    (y.availability.available = true → x.availability.available = true) ∧
    (x.availability.available = y.availability.available →
      x.goal.minTier ≤ y.goal.minTier) ∧
    (x.availability.available = y.availability.available →
      x.goal.minTier = y.goal.minTier → strLE x.goal.name y.goal.name = true) := by
  rw [ambLE_iff] at h
  rcases h with ⟨hx, hy⟩ | ⟨hav, h⟩
  · refine ⟨fun _ => hx, ?_, ?_⟩
    · intro he; rw [hx, hy] at he; cases he
    · intro he _; rw [hx, hy] at he; cases he
  · refine ⟨fun hyy => hav.trans hyy, fun _ => ?_, fun _ hmt => ?_⟩
    · rcases h with h | ⟨he, _⟩
      · exact le_of_lt h
      · exact le_of_eq he
    · rcases h with h | ⟨he, hs⟩
      · exact absurd hmt (ne_of_lt h)
      · exact hs

/-! ## Insertion sort lemmas -/

theorem mem_insertLE {α : Type} (le : α → α → Bool) (x a : α) :
    ∀ (l : List α), a ∈ insertLE le x l ↔ a = x ∨ a ∈ l := by
  intro l
  induction l with
  | nil => simp [insertLE]
  | cons y ys ih =>
    unfold insertLE
    by_cases h : le x y = true
    · rw [if_pos h]
      simp [List.mem_cons]
    · rw [if_neg h]
      simp only [List.mem_cons, ih]
      tauto

theorem pairwise_insertLE {α : Type} (le : α → α → Bool)
    (htrans : ∀ a b c, le a b = true → le b c = true → le a c = true)
    (htotal : ∀ a b, le a b = true ∨ le b a = true) (x : α) :
    ∀ (l : List α), l.Pairwise (fun a b => le a b = true) →
      (insertLE le x l).Pairwise (fun a b => le a b = true) := by
  intro l
  induction l with
  | nil => intro _; simp [insertLE]
  | cons y ys ih =>
    intro hp
    rcases List.pairwise_cons.mp hp with ⟨hy, hys⟩
    unfold insertLE
    by_cases h : le x y = true
    · rw [if_pos h]
      refine List.Pairwise.cons ?_ hp
      intro z hz
      rcases List.mem_cons.mp hz with hzy | hz
      · subst hzy; exact h
      · exact htrans x y z h (hy z hz)
    · rw [if_neg h]
      refine List.Pairwise.cons ?_ (ih hys)
      intro z hz
      rcases (mem_insertLE le x z ys).mp hz with hzx | hz
      · exact hzx.symm ▸ (htotal x y).resolve_left h
      · exact hy z hz

theorem pairwise_sortLE {α : Type} (le : α → α → Bool)
    (htrans : ∀ a b c, le a b = true → le b c = true → le a c = true)
    (htotal : ∀ a b, le a b = true ∨ le b a = true) :
    ∀ (l : List α), (sortLE le l).Pairwise (fun a b => le a b = true) := by
  intro l
  induction l with
  | nil => simp [sortLE]
  | cons x xs ih =>
    unfold sortLE
    exact pairwise_insertLE le htrans htotal x _ ih

/-! # Claim theorems -/

/-- Claim C1, counterexample: the pipeline does not enforce
`minTier ≤ maxTier` — a raw record carrying `iMinTier=5, iMaxTier=3` is
published with `minTier = 5 > 3 = maxTier`. -/
theorem c1_tier_cex :
    (parse_goals [] [] [cexTierEntry]).map (fun g => (g.minTier, g.maxTier)) =
      [((5 : Int), (3 : Int))] ∧ ¬ ((5 : Int) ≤ (3 : Int)) := by
  exact ⟨by rfl, by decide⟩

/-- Claim C1, amended: every published ambition's `minTier` is the raw
`iMinTier` defaulted to 1 and its `maxTier` is the raw `iMaxTier`
defaulted to 10; `minTier ≤ maxTier` therefore holds exactly when the
defaulted raw values satisfy it (in particular whenever the record omits
both fields), and the pipeline does not itself enforce the inequality. -/
theorem c1_tier_amended (texts : TextMap) (tbls : List Table) (e : RawEntry) (g : Goal)
    (h : parseGoalEntry texts tbls e = some g) :
    g.minTier = e.iMinTier.getD 1 ∧ g.maxTier = e.iMaxTier.getD 10 ∧
      (e.iMinTier.getD 1 ≤ e.iMaxTier.getD 10 → g.minTier ≤ g.maxTier) := by
  obtain ⟨z, hz, hs, hd, hg⟩ := parseGoalEntry_eq_some h
  subst hg
  exact ⟨rfl, rfl, fun hle => hle⟩

/-- Witness for C1 at a record omitting both tier fields. -/
theorem c1_tier_witness :
    parseGoalEntry [] [] wTierEntry = some wTierGoal ∧
      wTierGoal.minTier = 1 ∧ wTierGoal.maxTier = 10 ∧
      wTierGoal.minTier ≤ wTierGoal.maxTier := by
  refine ⟨rfl, ?_, ?_, ?_⟩
  · exact (c1_tier_amended [] [] wTierEntry wTierGoal rfl).1
  · exact (c1_tier_amended [] [] wTierEntry wTierGoal rfl).2.1
  · exact (c1_tier_amended [] [] wTierEntry wTierGoal rfl).2.2 (by decide)

/-- Claim C2, counterexample: with `StartLaw` present and `iCities=3`,
the simple-counts pass stores `cities` but does *not* retag
`type:"count"` — the law pass's earlier tag blocks it, contradicting
"no type tag set by this pass itself" — and the nonzero but negative
`iPopulation=-2` is not stored at all. -/
theorem c2_counts_cex :
    reqLookup cexCountGoal.requirements "type" = some (RVal.str "law") ∧
    reqLookup cexCountGoal.requirements "type" ≠ some (RVal.str "count") ∧
    reqLookup cexCountGoal.requirements "cities" = some (RVal.int 3) ∧
    reqLookup cexCountGoal.requirements "population" = none := by
  refine ⟨by rfl, by decide, by rfl, by rfl⟩

/-- Claim C2, amended: in the simple-counts pass a *positive* raw value
is stored under its output key (nonpositive values are not stored), and
`type:"count"` is set only when no type tag has been set at all — a tag
set by an earlier pass (required law or required theology) is preserved,
never overridden by this pass. -/
theorem c2_counts_amended (e : RawEntry) (req : ReqMap) :
    (∀ t, reqLookup req "type" = some t →
        reqLookup (simple_counts_pass e req) "type" = some t) ∧
    (reqLookup req "type" = none →
        reqLookup (simple_counts_pass e req) "type" =
          (if (simple_counts_data e).any (fun p => decide (0 < p.2))
           then some (RVal.str "count") else none)) ∧
    (∀ jf v, (jf, v) ∈ simple_counts_data e → 0 < v →
        reqLookup (simple_counts_pass e req) jf = some (RVal.int v)) ∧
    (∀ jf v, (jf, v) ∈ simple_counts_data e → ¬ 0 < v →
        reqLookup (simple_counts_pass e req) jf = reqLookup req jf) := by
  have hk : ∀ p ∈ simple_counts_data e, p.1 ≠ "type" := by
    intro p hp hcontra
    have hmem : p.1 ∈ (simple_counts_data e).map Prod.fst :=
      List.mem_map_of_mem Prod.fst hp
    rw [scd_keys, hcontra] at hmem
    exact type_not_in_keys hmem
  have hnd : ((simple_counts_data e).map Prod.fst).Nodup := by
    rw [scd_keys]; exact simpleCountKeys_nodup
  refine ⟨?_, ?_, ?_, ?_⟩
  · intro t ht
    rw [simple_counts_pass, sc_fold_type _ _ hk, ht]
    rfl
  · intro ht
    rw [simple_counts_pass, sc_fold_type _ _ hk, ht]
    rfl
  · intro jf v hm hv
    have hjf : jf ≠ "type" := hk (jf, v) hm
    rw [simple_counts_pass, sc_fold_other _ _ _ hjf,
      storedVal_of_mem _ _ _ hnd hm hv]
  · intro jf v hm hv
    have hjf : jf ≠ "type" := hk (jf, v) hm
    rw [simple_counts_pass, sc_fold_other _ _ _ hjf,
      storedVal_nonpos_of_mem _ _ _ hnd hm hv]

/-- Witness for C2: with no earlier tag and a positive `iCities`, the
pass does tag `type:"count"`. -/
theorem c2_counts_witness :
    reqLookup (simple_counts_pass wCountEntry []) "type" = some (RVal.str "count") := by
  have h := (c2_counts_amended wCountEntry []).2.1 rfl
  rw [h]
  decide

/-- Claim C3, counterexample: `eventSource` attachment only checks id
membership in the overlay table, so a raw `GOAL_TO_BE_KING` record with
`iSubjectWeight=5` is published with an event source *and* a nonzero
subject weight. -/
theorem c3_event_cex :
    cexEventGoal.eventSource.isSome = true ∧
    cexEventGoal.subjectWeight = 5 ∧
    cexEventGoal.subjectWeight ≠ 0 := by
  refine ⟨by rfl, by rfl, by decide⟩

/-- Claim C3, amended: `eventSource` is present exactly when the id is
in the static `EVENT_ONLY_AMBITIONS` table, while `subjectWeight` is a
verbatim copy of the raw `iSubjectWeight` (default 0); so an
event-annotated ambition has `subjectWeight = 0` whenever its raw record
omits the field or sets it to 0 — the code does not enforce this. -/
theorem c3_event_amended (texts : TextMap) (tbls : List Table) (e : RawEntry) (g : Goal)
    (h : parseGoalEntry texts tbls e = some g) :
    g.eventSource.isSome = (List.lookup g.id EVENT_ONLY_AMBITIONS).isSome ∧
    g.subjectWeight = e.iSubjectWeight.getD 0 ∧
    (e.iSubjectWeight.getD 0 = 0 → g.eventSource.isSome = true → g.subjectWeight = 0) := by
  obtain ⟨z, hz, hs, hd, hg⟩ := parseGoalEntry_eq_some h
  subst hg
  refine ⟨?_, rfl, fun h0 _ => h0⟩
  show ((List.lookup z EVENT_ONLY_AMBITIONS).map (fun i =>
    ({ eventName := i.eventName, eventDlc := i.dlc, trigger := i.trigger } : EventSource))).isSome =
    (List.lookup z EVENT_ONLY_AMBITIONS).isSome
  cases List.lookup z EVENT_ONLY_AMBITIONS <;> rfl

/-- Witness for C3 at a record omitting the weight field. -/
theorem c3_event_witness :
    parseGoalEntry [] [] wEventEntry = some wEventGoal ∧
    wEventGoal.eventSource.isSome = true ∧
    wEventGoal.subjectWeight = 0 := by
  refine ⟨rfl, by rfl, ?_⟩
  exact (c3_event_amended [] [] wEventEntry wEventGoal rfl).2.2 (by decide) (by rfl)

/-- Claim C4: with no nation selected and no family classes selected,
`checkAvailability` marks every ambition available with no reasons,
whatever its `nationPrereq` and `familyClasses` filter values are. -/
theorem c4_no_selection_available (ctx : FilterContext) (a : Goal)
    (h1 : ctx.selectedNation = "") (h2 : ctx.selectedFamilies = []) :
    checkAvailability ctx a = { available := true, reasons := [] } := by
  simp only [checkAvailability, h1, h2]
  cases a.filters.nationPrereq <;> simp

/-- Witness for C4 at an ambition declaring both filters. -/
theorem c4_witness :
    checkAvailability {} c4Goal = { available := true, reasons := [] } :=
  c4_no_selection_available {} c4Goal rfl rfl

/-- Claim C5: a specific completed-count bucket yields target tier
bucket+1, the tier test passes exactly when
`minTier ≤ target ≤ maxTier`, the `'all'` bucket excludes nothing, and
the spec's `iMinTier=3, iMaxTier=7, iSubjectWeight=5` record passes at
target tier 5 (bucket 4) and fails at target tier 8 (bucket 7). -/
theorem c5_tier_filter :
    (∀ b : Nat, tierFilterOf (some b) = some ((b : Int) + 1)) ∧
    (∀ (b : Nat) (a : Goal),
      tierPass (tierFilterOf (some b)) a = true ↔
        a.minTier ≤ (b : Int) + 1 ∧ (b : Int) + 1 ≤ a.maxTier) ∧
    (∀ a : Goal, tierPass (tierFilterOf none) a = true) ∧
    tierScenarioGoal.minTier = 3 ∧ tierScenarioGoal.maxTier = 7 ∧
    tierScenarioGoal.subjectWeight = 5 ∧
    tierPass (tierFilterOf (some 4)) tierScenarioGoal = true ∧
    tierPass (tierFilterOf (some 7)) tierScenarioGoal = false := by
  refine ⟨fun b => rfl, ?_, fun a => rfl, by rfl, by rfl, by rfl, by decide, by decide⟩
  intro b a
  show (!(decide (a.minTier > (b : Int) + 1) || decide (a.maxTier < (b : Int) + 1))) = true ↔ _
  simp only [Bool.not_eq_true', Bool.or_eq_false_iff, decide_eq_false_iff_not, not_lt]

/-- Claim C6: the ranked output of `processAmbitions` is totally ordered
by the engine's three keys — available before unavailable, then
ascending `minTier`, then ascending (lexicographic) name: in particular
for any two output items with equal availability and equal `minTier`,
the earlier one's name is lexicographically ≤ the later one's, so the
smaller name appears first. -/
theorem c6_sort_order (ctx : FilterContext) (l : List Goal) :
    (processAmbitions ctx l).Pairwise (fun a b =>
      (b.availability.available = true → a.availability.available = true) ∧
      (a.availability.available = b.availability.available →
        a.goal.minTier ≤ b.goal.minTier) ∧
      (a.availability.available = b.availability.available →
        a.goal.minTier = b.goal.minTier →
        strLE a.goal.name b.goal.name = true)) := by
  have hsorted := pairwise_sortLE ambLE ambLE_trans ambLE_total
    (l.map (fun a => { goal := a, availability := checkAvailability ctx a }))
  have himps := hsorted.imp (fun {a b} h => ambLE_dest h)
  unfold processAmbitions
  by_cases hs : ctx.showUnavail = true
  · rw [if_pos hs]
    exact himps
  · rw [if_neg hs]
    exact List.Pairwise.sublist (List.filter_sublist _) himps

/-- Witness for C6 at a two-element list and a populated context. -/
theorem c6_sort_order_witness :
    (processAmbitions sortCtx [sortGoalA, sortGoalB]).Pairwise (fun a b =>
      (b.availability.available = true → a.availability.available = true) ∧
      (a.availability.available = b.availability.available →
        a.goal.minTier ≤ b.goal.minTier) ∧
      (a.availability.available = b.availability.available →
        a.goal.minTier = b.goal.minTier →
        strLE a.goal.name b.goal.name = true)) :=
  c6_sort_order sortCtx [sortGoalA, sortGoalB]

/-- Claim C7: the list rendered with "show unavailable" off equals the
list rendered with it on restricted to its available items — dropping
happens only after sorting the full set, so the toggle never changes the
relative order of the remaining items. -/
theorem c7_toggle (ctx : FilterContext) (l : List Goal) :
    processAmbitions { ctx with showUnavail := false } l =
      (processAmbitions { ctx with showUnavail := true } l).filter
        (fun r => r.availability.available) := by
  cases ctx
  rfl

/-- Witness for C7 at a two-element list and a populated context. -/
theorem c7_toggle_witness :
    processAmbitions { sortCtx with showUnavail := false } [sortGoalA, sortGoalB] =
      (processAmbitions { sortCtx with showUnavail := true } [sortGoalA, sortGoalB]).filter
        (fun r => r.availability.available) :=
  c7_toggle sortCtx [sortGoalA, sortGoalB]

/-- Claim C8: when two sources define the same text key, the catalog
built from both (in load order) carries the later source's value —
last-write-wins, without error or merging. -/
theorem c8_last_write_wins (f1 f2 : List TextEntry) (k v1 v2 : String)
    (hne : v1 ≠ v2)
    (h1 : List.lookup k (build_text_lookup [f1]) = some v1)
    (h2 : List.lookup k (build_text_lookup [f2]) = some v2) :
    List.lookup k (build_text_lookup [f1, f2]) = some v2 := by
  have hb : build_text_lookup [f1, f2] =
      f2.foldl storeEntry (f1.foldl storeEntry []) := rfl
  have hb2 : build_text_lookup [f2] = f2.foldl storeEntry [] := rfl
  rw [hb, lookup_foldl_store, ← hb2, h2]
  rfl

/-- Witness for C8 with two one-entry sources disagreeing on `TEXT_K`. -/
theorem c8_witness :
    ("Alpha" : String) ≠ "Beta" ∧
    List.lookup "TEXT_K" (build_text_lookup [c8FileA]) = some "Alpha" ∧
    List.lookup "TEXT_K" (build_text_lookup [c8FileB]) = some "Beta" ∧
    List.lookup "TEXT_K" (build_text_lookup [c8FileA, c8FileB]) = some "Beta" := by
  refine ⟨by decide, by rfl, by rfl, ?_⟩
  exact c8_last_write_wins c8FileA c8FileB "TEXT_K" "Alpha" "Beta"
    (by decide) (by rfl) (by rfl)

/-- Claim C9: when no type table contains `LAW_FOO_BAR`, resolving the
macro `link(LAW_FOO_BAR)` falls back to stripping the first matching
known head, replacing underscores with spaces and title-casing, giving
`"Foo Bar"`; and a reference matching no known head is returned
unchanged by the fallback formatter. -/
theorem c9_link_fallback :
    (∀ (texts : TextMap) (tbls : List Table),
      (∀ tbl ∈ tbls, List.lookup "LAW_FOO_BAR" tbl = none) →
      resolve_link texts tbls "link(LAW_FOO_BAR)" = "Foo Bar") ∧
    (∀ ref : String, linkHeads.all (fun p => !startsW ref p) = true →
      linkFallback ref = ref) := by
  constructor
  · intro texts tbls h
    rw [resolve_link_single]
    have hch : commaHead "LAW_FOO_BAR" = "LAW_FOO_BAR" := rfl
    rw [replace_link_fallback (by rw [hch]; exact probeLookups_eq_none h), hch]
    rfl
  · intro ref h
    unfold linkFallback
    have hf : linkHeads.find? (fun p => startsW ref p) = none := by
      rw [List.find?_eq_none]
      intro p hp
      have hball := List.all_eq_true.mp h p hp
      simp only [Bool.not_eq_true'] at hball
      simp [hball]
    rw [hf]

/-- Witness for C9 at empty catalogs and at a headless reference. -/
theorem c9_witness :
    resolve_link [] [] "link(LAW_FOO_BAR)" = "Foo Bar" ∧
    linkFallback "XENOPHON" = "XENOPHON" :=
  ⟨c9_link_fallback.1 [] [] (by simp), c9_link_fallback.2 "XENOPHON" (by decide)⟩

/-- Claim C10, counterexample: the resolver *can* produce an empty
display string — for the reference `LAW_` contained in a table whose
name-key has no text entry, the fallback strips the whole reference and
yields `""`. -/
theorem c10_resolver_cex :
    List.lookup "LAW_" c10Table = some "TEXT_LAW_BARE" ∧
    List.lookup "TEXT_LAW_BARE" ([] : TextMap) = none ∧
    replace_link [] [c10Table] "LAW_" = "" := by
  refine ⟨by rfl, by rfl, by rfl⟩

/-- Claim C10, amended: a table containing the reference but pointing at
a missing text key is skipped and the remaining tables are probed; when
every table either lacks the reference or points at a missing text key,
the resolver falls back to the head-stripping formatter (which returns
the reference unchanged when no known head matches) — but the result
may be the empty string for a bare-head reference, so "never empty"
does not hold. -/
theorem c10_probe_amended :
    (∀ (texts : TextMap) (tbl : Table) (rest : List Table) (ref tkey : String),
      List.lookup ref tbl = some tkey → List.lookup tkey texts = none →
      probeLookups texts (tbl :: rest) ref = probeLookups texts rest ref) ∧
    (∀ (texts : TextMap) (tbls : List Table) (refRaw : String),
      (∀ tbl ∈ tbls, ∀ k, List.lookup (commaHead refRaw) tbl = some k →
        List.lookup k texts = none) →
      replace_link texts tbls refRaw = linkFallback (commaHead refRaw)) := by
  constructor
  · intro texts tbl rest ref tkey h1 h2
    exact probeLookups_skip h1 h2
  · intro texts tbls refRaw h
    exact replace_link_fallback (probeLookups_all_missing h)

/-- Witness for C10 at a one-table catalog whose only hit has no text. -/
theorem c10_probe_witness :
    probeLookups [] [c10WitnessTable] "LAW_EPICS" = probeLookups [] [] "LAW_EPICS" ∧
    replace_link [] [c10WitnessTable] "LAW_EPICS" = linkFallback "LAW_EPICS" ∧
    linkFallback "LAW_EPICS" = "Epics" := by
  refine ⟨?_, ?_, by rfl⟩
  · exact c10_probe_amended.1 [] c10WitnessTable [] "LAW_EPICS" "TEXT_LAW_EPICS"
      (by rfl) (by rfl)
  · refine c10_probe_amended.2 [] [c10WitnessTable] "LAW_EPICS" ?_
    intro tbl ht k hk
    rfl
